import Mathlib

/-!
Shallow embedding of `scripts/deploy-agents.py` (Zabbix agent deployment
orchestrator) and proofs about its host-selection, per-host deployment,
state-store and exit-disposition logic.

Strings are modelled with Lean `String` (a list of characters); machine
interaction (SSH, files, clocks) is modelled by explicit oracle inputs:
a `DeployEnv` records what the remote calls of one host attempt returned,
a worker is `Device → Except String DeployEnv` where `Except.error e`
models a Python exception with message `e` raised before the record step
(inside `deploy_device`) and escaping `deploy_and_record`; a fault raised
inside the record step's persistence itself is modelled separately by the
split model `deploy_and_record_split`. The persisted state file is a
small JSON value model.
-/

-- ===========================================================================
-- Python string helpers (str.strip, slicing) used by the script
-- ===========================================================================

/-- ASCII whitespace as recognised by Python `str.strip()`. -/
def pyIsSpace (c : Char) : Bool :=
  c = ' ' || c = '\t' || c = '\n' || c = '\r' || c = Char.ofNat 11 || c = Char.ofNat 12

/-- Python `s.strip()`: drop leading and trailing whitespace. -/
def pyStrip (s : String) : String :=
  String.mk (((s.data.dropWhile pyIsSpace).reverse.dropWhile pyIsSpace).reverse)

/-- Python `s[-n:]` for `n < len(s)`: the last `n` characters (whole string when shorter). -/
def takeRight (n : Nat) (s : String) : String :=
  String.mk (s.data.drop (s.data.length - n))

/-- Python `" ".join(parts)`. -/
def joinSpace : List String → String
  | [] => ""
  | [s] => s
  | s :: rest => s ++ " " ++ joinSpace rest

-- ===========================================================================
-- shlex.quote (CPython), used by build_env_string for every metadata value
-- ===========================================================================

/-- The single-quote character. -/
def squote : Char := Char.ofNat 39

/-- The double-quote character. -/
def dquote : Char := Char.ofNat 34

/-- The backquote character (command substitution in a shell). -/
def bquote : Char := Char.ofNat 96

/-- Characters `shlex.quote` leaves unquoted: ASCII letters and digits
plus underscore, at-sign, percent, plus, equals, colon, comma, dot, slash
and dash (the complement of CPython `_find_unsafe`). -/
def shlexSafe (c : Char) : Bool :=
  c.isAlphanum || c = '_' || c = '@' || c = '%' || c = '+' || c = '=' ||
    c = ':' || c = ',' || c = '.' || c = '/' || c = '-'

/-- Python `s.replace("'", "'\"'\"'")` at character-list level: each
single quote becomes the five characters quote, double-quote, quote,
double-quote, quote. -/
def quoteReplaced : List Char → List Char
  | [] => []
  | c :: rest =>
    if c = squote then
      squote :: dquote :: squote :: dquote :: squote :: quoteReplaced rest
    else
      c :: quoteReplaced rest

/-- CPython `shlex.quote(s)`: empty becomes two quotes, all-safe strings
pass through, anything else is wrapped in single quotes with embedded
single quotes spliced through double quotes. -/
def shlexQuote (s : String) : String :=
  if s = "" then String.mk [squote, squote]
  else if s.data.all shlexSafe then s
  else String.mk (squote :: (quoteReplaced s.data ++ [squote]))

/-- Quoting mode of a POSIX-shell word scanner. -/
inductive QMode where
  | unq : QMode
  | single : QMode
  | double : QMode

/-- A conservative POSIX-shell single-word scanner: returns the literal
characters the shell would hand to the command when the input is one word
made of safe unquoted characters, single-quoted spans and double-quoted
spans, and fails on any character that the shell would treat specially
(separators, substitution, globbing, escapes). -/
def parseW : List Char → QMode → Option (List Char)
  | [], QMode.unq => some []
  | [], QMode.single => none
  | [], QMode.double => none
  | c :: rest, QMode.unq =>
    if shlexSafe c then (parseW rest QMode.unq).map (fun l => c :: l)
    else if c = squote then parseW rest QMode.single
    else if c = dquote then parseW rest QMode.double
    else none
  | c :: rest, QMode.single =>
    if c = squote then parseW rest QMode.unq
    else (parseW rest QMode.single).map (fun l => c :: l)
  | c :: rest, QMode.double =>
    if c = dquote then parseW rest QMode.unq
    else if c = '\\' || c = '$' || c = bquote then none
    else (parseW rest QMode.double).map (fun l => c :: l)

/-- Parse a whole string as one inert shell word. -/
def shellParseWord (s : String) : Option String :=
  (parseW s.data QMode.unq).map String.mk

-- ===========================================================================
-- Data model: Device, DeploymentResult, command results (dataclasses)
-- ===========================================================================

/-- `Device` dataclass from the script (all CSV fields are strings). -/
structure Device where
  device_name : String
  platform : String
  tailscale_ip : String
  location : String
  client : String
  chain : String
  asset_tag : String
  latitude : String
  longitude : String
  ssh_user : String
  ssh_password : String
deriving DecidableEq

/-- `INSTALL_SCRIPTS[platform]` for the three valid platforms (devices
reaching deployment have validated platforms, so the fallback is unused). -/
def installScriptFor (p : String) : String :=
  if p = "raspberrypi" then "install-zabbix-agent-raspberrypi.sh"
  else if p = "radxa" then "install-zabbix-agent-radxa.sh"
  else if p = "macos" then "install-zabbix-agent-macos.sh"
  else ""

/-- `DeploymentResult` dataclass; duration is modelled as a natural number
of time units. -/
structure DeploymentResult where
  device_name : String
  success : Bool
  duration_seconds : Nat
  error_message : String
  log_file : String
deriving DecidableEq

/-- Result of one `subprocess.run` (exit code plus captured streams). -/
structure CmdResult where
  returncode : Int
  stdout : String
  stderr : String
deriving DecidableEq

-- ===========================================================================
-- State store (StateManager): in-memory dict plus JSON persistence
-- ===========================================================================

/-- One state-file entry: `{"status": ..., "timestamp": ..., "error": ...}`. -/
structure Entry where
  status : String
  timestamp : String
  error : Option String
deriving DecidableEq

/-- The in-memory `StateManager.state` dict, keyed by device name. -/
abbrev StateMap := List (String × Entry)

/-- Python dict lookup `state.get(name)`. -/
def dictGet : StateMap → String → Option Entry
  | [], _ => none
  | (k, v) :: rest, key => if k = key then some v else dictGet rest key

/-- Python dict assignment `state[name] = entry` (replace in place, or
append a new key). -/
def dictSet : StateMap → String → Entry → StateMap
  | [], k, v => [(k, v)]
  | (k0, v0) :: rest, k, v =>
    if k0 = k then (k, v) :: rest else (k0, v0) :: dictSet rest k v

/-- `StateManager.get_status`. -/
def get_status (st : StateMap) (device_name : String) : Option String :=
  (dictGet st device_name).map (fun e => e.status)

/-- `StateManager.mark_success` (in-memory update; persistence is modelled
by `encodeState` below). -/
def mark_success (st : StateMap) (device_name ts : String) : StateMap :=
  dictSet st device_name ⟨"success", ts, none⟩

/-- `StateManager.mark_failed`. -/
def mark_failed (st : StateMap) (device_name ts error : String) : StateMap :=
  dictSet st device_name ⟨"failed", ts, some error⟩

/-- States whose entries only carry the two statuses the store ever
writes. -/
def wellFormedState (st : StateMap) : Prop :=
  ∀ p ∈ st, p.2.status = "success" ∨ p.2.status = "failed"

-- ===========================================================================
-- JSON model of the persisted state file
-- ===========================================================================

/-- Minimal JSON value model for the state file. -/
inductive JVal where
  | null : JVal
  | str : String → JVal
  | num : Int → JVal
  | obj : List (String × JVal) → JVal

/-- Lookup in a JSON object. -/
def jGet : List (String × JVal) → String → Option JVal
  | [], _ => none
  | (k, v) :: rest, key => if k = key then some v else jGet rest key

/-- Whether a JSON value is an object (a dict, the store format). -/
def jIsObj : JVal → Bool
  | JVal.obj _ => true
  | _ => false

/-- `json.dump` of one state entry. -/
def encodeEntry (e : Entry) : JVal :=
  JVal.obj [("status", JVal.str e.status), ("timestamp", JVal.str e.timestamp),
    ("error", match e.error with | none => JVal.null | some s => JVal.str s)]

/-- `StateManager._save`: the whole state map serialised to JSON. -/
def encodeState (st : StateMap) : JVal :=
  JVal.obj (st.map (fun p => (p.1, encodeEntry p.2)))

/-- Condition of the persisted state file as observed by
`StateManager._load`: missing, unreadable (IOError on open/read),
syntactically invalid JSON (JSONDecodeError), or a successfully parsed
JSON value. -/
inductive FileState where
  | absent : FileState
  | unreadable : FileState
  | invalidJson : FileState
  | json : JVal → FileState

/-- `StateManager._load`: `{}` when the file is missing, and
`JSONDecodeError`/`IOError` are caught and replaced by `{}`; any
successfully parsed JSON value is returned as is. -/
def stateLoad : FileState → JVal
  | FileState.absent => JVal.obj []
  | FileState.unreadable => JVal.obj []
  | FileState.invalidJson => JVal.obj []
  | FileState.json v => v

/-- `get_status` as it executes against a freshly loaded JSON value
(`entry = state.get(name)` then `entry.get("status")`). -/
def getStatusJ (v : JVal) (device_name : String) : Option JVal :=
  match v with
  | JVal.obj entries =>
    match jGet entries device_name with
    | some (JVal.obj fields) => jGet fields "status"
    | _ => none
  | _ => none

-- ===========================================================================
-- build_env_string
-- ===========================================================================

/-- The key/value pairs `build_env_string` includes, in order: the device
name always, each metadata field when non-empty, and the token when
non-empty. -/
def envSpec (d : Device) (zabbix_token : String) : List (String × String) :=
  [("DEVICE_NAME", d.device_name)]
  ++ (if d.location ≠ "" then [("LOCATION", d.location)] else [])
  ++ (if d.client ≠ "" then [("CLIENT", d.client)] else [])
  ++ (if d.chain ≠ "" then [("CHAIN", d.chain)] else [])
  ++ (if d.asset_tag ≠ "" then [("ASSET_TAG", d.asset_tag)] else [])
  ++ (if d.latitude ≠ "" then [("LATITUDE", d.latitude)] else [])
  ++ (if d.longitude ≠ "" then [("LONGITUDE", d.longitude)] else [])
  ++ (if zabbix_token ≠ "" then [("ZABBIX_API_TOKEN", zabbix_token)] else [])

/-- The `parts` list of `build_env_string`: each included pair rendered as
`KEY={shlex.quote(value)}`. -/
def envParts (d : Device) (zabbix_token : String) : List String :=
  (envSpec d zabbix_token).map (fun kv => kv.1 ++ "=" ++ shlexQuote kv.2)

/-- The values from inventory metadata (and the token) that flow into the
environment string. -/
def includedValues (d : Device) (zabbix_token : String) : List String :=
  (envSpec d zabbix_token).map (fun kv => kv.2)

/-- `build_env_string(device, zabbix_token)`: `" ".join(parts)`. -/
def build_env_string (d : Device) (zabbix_token : String) : String :=
  joinSpace (envParts d zabbix_token)

-- ===========================================================================
-- deploy_device
-- ===========================================================================

/-- Oracle input for one `deploy_device` call: what the SSH transport and
local filesystem answered during that attempt. `dur` stands for the
elapsed wall-clock duration measured at return. -/
structure DeployEnv where
  logDir : String
  scriptsDir : String
  useGithub : Bool
  reachable : Bool
  connMsg : String
  localScriptExists : Bool
  scpResult : CmdResult
  execResult : CmdResult
  dur : Nat
deriving DecidableEq

/-- `os.path.join(log_dir, f"{device_name}.log")`. -/
def logPath (logDir device_name : String) : String :=
  logDir ++ "/" ++ device_name ++ ".log"

/-- Tail of `deploy_device` after the execute step returned `r`:
zero exit is success; otherwise the error message is the stripped stderr,
truncated to its last 200 characters with a `...` marker when longer than
200, and replaced by a generic message when empty. -/
def finishExec (device_name log_file : String) (dur : Nat) (r : CmdResult) :
    DeploymentResult :=
  if r.returncode = 0 then
    ⟨device_name, true, dur, "", log_file⟩
  else
    let error0 := pyStrip r.stderr
    let error1 := if error0.length > 200 then "..." ++ takeRight 200 error0 else error0
    let error2 := if error1 = "" then "Script exited with non-zero status" else error1
    ⟨device_name, false, dur, error2, log_file⟩

/-- `deploy_device(device, ...)` as a function of the transport oracle:
probe, then (in local mode) script existence and SCP, then execute.
The best-effort remote cleanup is omitted: it is wrapped in a bare
`try/except` and never affects the returned result. -/
def deploy_device (d : Device) (e : DeployEnv) : DeploymentResult :=
  let log_file := logPath e.logDir d.device_name
  if e.reachable = false then
    ⟨d.device_name, false, e.dur, e.connMsg, log_file⟩
  else if e.useGithub then
    finishExec d.device_name log_file e.dur e.execResult
  else if e.localScriptExists = false then
    ⟨d.device_name, false, e.dur,
      "Local script not found: " ++ e.scriptsDir ++ "/" ++ installScriptFor d.platform,
      log_file⟩
  else if e.scpResult.returncode ≠ 0 then
    ⟨d.device_name, false, e.dur, "SCP failed: " ++ pyStrip e.scpResult.stderr, log_file⟩
  else
    finishExec d.device_name log_file e.dur e.execResult

-- ===========================================================================
-- deploy_and_record and the orchestration loop
-- ===========================================================================

/-- The state-store write done after each outcome. -/
def recordOutcome (st : StateMap) (device_name : String) (r : DeploymentResult)
    (ts : String) : StateMap :=
  if r.success then mark_success st device_name ts
  else mark_failed st device_name ts r.error_message

/-- `deploy_and_record`: run `deploy_device` and write the outcome through
to the state store. An `Except.error e` worker oracle models a Python
exception with message `e` raised inside `deploy_device` — before the
record step — and escaping the call (for example a transport timeout).
A fault raised inside the record step itself (in `_save`, after the
in-memory dict assignment) is not representable here; it is modelled by
`deploy_and_record_split` below. -/
def deploy_and_record (d : Device) (w : Except String DeployEnv) (ts : String)
    (st : StateMap) : Except String (DeploymentResult × StateMap) :=
  match w with
  | Except.error e => Except.error e
  | Except.ok env =>
    let r := deploy_device d env
    Except.ok (r, recordOutcome st d.device_name r ts)

/-- The per-host handler of `main`: both the sequential loop and the
parallel `as_completed` loop wrap the worker in `try/except` and replace
an escaped exception by a failed result with duration 0, an
`Unexpected error: ...` message and no log file. Over this oracle the
escaped exception predates the record step, so the state is returned as
it was; see `handleWorker_split` for the save-fault path. -/
def handleWorker (d : Device) (w : Except String DeployEnv) (ts : String)
    (st : StateMap) : DeploymentResult × StateMap :=
  match deploy_and_record d w ts st with
  | Except.ok p => p
  | Except.error e => (⟨d.device_name, false, 0, "Unexpected error: " ++ e, ""⟩, st)

/-- The result the run records for one host, as a function of the worker
oracle alone. -/
def hostResult (d : Device) (w : Except String DeployEnv) : DeploymentResult :=
  match w with
  | Except.ok env => deploy_device d env
  | Except.error e => ⟨d.device_name, false, 0, "Unexpected error: " ++ e, ""⟩

/-- The deployment loop of `main` step 12: process the hosts in the given
order, appending each outcome to `results` and threading the state store. -/
def deployLoop : List Device → (Device → Except String DeployEnv) → String →
    StateMap → List DeploymentResult × StateMap
  | [], _, _, st => ([], st)
  | d :: rest, w, ts, st =>
    let p := handleWorker d (w d) ts st
    let q := deployLoop rest w ts p.2
    (p.1 :: q.1, q.2)

/-- Step 12 with its pool-size branch: with pool size above 1 the results
arrive in completion order `order` (a permutation of the submission list),
otherwise in submission order. -/
def deployAll (n : Nat) (devices order : List Device)
    (w : Device → Except String DeployEnv) (ts : String) (st : StateMap) :
    List DeploymentResult × StateMap :=
  if 1 < n then deployLoop order w ts st else deployLoop devices w ts st

-- ===========================================================================
-- main: selection pipeline and exit disposition
-- ===========================================================================

/-- `parse_args` clamping of `--parallel` into `[1, 5]`. -/
def clampParallel (p : Nat) : Nat :=
  if p < 1 then 1 else if p > 5 then 5 else p

/-- Everything `main` consumes, with the transport modelled as oracles:
`worker` gives each device attempt's behaviour and `completion` gives the
`as_completed` arrival order of a submitted batch. -/
structure MainInput where
  inventoryExists : Bool
  inventory : List Device
  deviceFilter : Option String
  platformFilter : Option String
  resume : Bool
  retryFailed : Bool
  parallel : Nat
  state : StateMap
  ts : String
  worker : Device → Except String DeployEnv
  completion : List Device → List Device

/-- Early-exit propagation: a prior `sys.exit(c)` short-circuits the rest
of `main`. -/
def exceptChain {α β : Type} (x : Except Nat α) (f : α → Except Nat β) :
    Except Nat β :=
  match x with
  | Except.error c => Except.error c
  | Except.ok a => f a

/-- `--device` filter: exit code 1 when the name matches nothing. -/
def applyDeviceFilter (devices : List Device) : Option String →
    Except Nat (List Device)
  | none => Except.ok devices
  | some name =>
    if (devices.filter (fun d => d.device_name = name)).isEmpty then Except.error 1
    else Except.ok (devices.filter (fun d => d.device_name = name))

/-- `--platform` filter: exit code 1 when no device has the platform. -/
def applyPlatformFilter (devices : List Device) : Option String →
    Except Nat (List Device)
  | none => Except.ok devices
  | some p =>
    if (devices.filter (fun d => d.platform = p)).isEmpty then Except.error 1
    else Except.ok (devices.filter (fun d => d.platform = p))

/-- `--resume` selection: keep devices whose recorded status is not
`success`. -/
def resumeSelect (st : StateMap) (devices : List Device) : List Device :=
  devices.filter (fun d => !(decide (get_status st d.device_name = some "success")))

/-- `--retry-failed` selection: keep only devices whose recorded status is
`failed`. -/
def retrySelect (st : StateMap) (devices : List Device) : List Device :=
  devices.filter (fun d => decide (get_status st d.device_name = some "failed"))

/-- Step 5 of `main`: resume and retry-failed are mutually exclusive
(`if`/`elif`); retry-failed with nothing to retry exits 0. -/
def applyStateFilter (st : StateMap) (resume retryFailed : Bool)
    (devices : List Device) : Except Nat (List Device) :=
  if resume then Except.ok (resumeSelect st devices)
  else if retryFailed then
    if (retrySelect st devices).isEmpty then Except.error 0
    else Except.ok (retrySelect st devices)
  else Except.ok devices

/-- Steps 3 to 5 of `main`: inventory existence, non-empty parse result,
the two filters, state-based selection, and the final `if not devices:
sys.exit(0)` guard. `Except.error c` means `sys.exit(c)` before any
deployment. -/
def selectHosts (inp : MainInput) : Except Nat (List Device) :=
  if inp.inventoryExists = false then Except.error 1
  else if inp.inventory.isEmpty then Except.error 1
  else
    exceptChain (applyDeviceFilter inp.inventory inp.deviceFilter) (fun ds1 =>
      exceptChain (applyPlatformFilter ds1 inp.platformFilter) (fun ds2 =>
        exceptChain (applyStateFilter inp.state inp.resume inp.retryFailed ds2) (fun ds3 =>
          if ds3.isEmpty then Except.error 0 else Except.ok ds3)))

/-- The process exit code of `main` (non-interactive paths): selection may
exit early, otherwise deploy to every selected host and exit 1 exactly
when some recorded outcome failed. -/
def mainExit (inp : MainInput) : Nat :=
  match selectHosts inp with
  | Except.error c => c
  | Except.ok ds =>
    let results :=
      (deployAll (clampParallel inp.parallel) ds (inp.completion ds)
        inp.worker inp.ts inp.state).1
    if results.any (fun r => !r.success) then 1 else 0

-- ===========================================================================
-- Helper lemmas: strings
-- ===========================================================================

theorem mk_data (s : String) : String.mk s.data = s := by
  cases s
  rfl

theorem str_empty_append (s : String) : "" ++ s = s := by
  cases s
  rfl

theorem str_append_empty (s : String) : s ++ "" = s := by
  cases s with
  | mk l =>
    show String.mk (l ++ []) = String.mk l
    rw [List.append_nil]

theorem str_length_append (a b : String) : (a ++ b).length = a.length + b.length := by
  cases a with
  | mk x =>
    cases b with
    | mk y =>
      show (x ++ y).length = x.length + y.length
      exact List.length_append x y

theorem str_eq_empty_iff (s : String) : s = "" ↔ s.data = [] := by
  constructor
  · intro h
    rw [h]
  · intro h
    cases s with
    | mk l =>
      have hl : l = [] := h
      rw [hl]

-- ===========================================================================
-- Helper lemmas: shlex.quote output is inert for the shell
-- ===========================================================================

theorem parse_safe (l : List Char) (h : l.all shlexSafe = true) :
    parseW l QMode.unq = some l := by
  induction l with
  | nil => rfl
  | cons c rest ih =>
    rw [List.all_cons, Bool.and_eq_true] at h
    simp [parseW, h.1, ih h.2]

theorem parse_single_replaced (l : List Char) :
    parseW (quoteReplaced l ++ [squote]) QMode.single = some l := by
  induction l with
  | nil => rfl
  | cons c rest ih =>
    by_cases hc : c = squote
    · subst hc
      show Option.map (fun l => squote :: l)
        (parseW (quoteReplaced rest ++ [squote]) QMode.single) = some (squote :: rest)
      rw [ih]
      rfl
    · have hqr : quoteReplaced (c :: rest) = c :: quoteReplaced rest := by
        simp [quoteReplaced, hc]
      rw [hqr, List.cons_append]
      simp [parseW, hc, ih]

theorem shlexQuote_inert (s : String) : shellParseWord (shlexQuote s) = some s := by
  by_cases h0 : s = ""
  · subst h0
    rfl
  · by_cases h1 : s.data.all shlexSafe = true
    · have hq : shlexQuote s = s := by
        unfold shlexQuote
        rw [if_neg h0, if_pos h1]
      rw [hq]
      show (parseW s.data QMode.unq).map String.mk = some s
      rw [parse_safe s.data h1]
      simp [mk_data]
    · have hq : shlexQuote s = String.mk (squote :: (quoteReplaced s.data ++ [squote])) := by
        unfold shlexQuote
        rw [if_neg h0, if_neg h1]
      rw [hq]
      show (parseW (squote :: (quoteReplaced s.data ++ [squote])) QMode.unq).map String.mk
        = some s
      have hstep : parseW (squote :: (quoteReplaced s.data ++ [squote])) QMode.unq
          = parseW (quoteReplaced s.data ++ [squote]) QMode.single := rfl
      rw [hstep, parse_single_replaced]
      simp [mk_data]

theorem joinSpace_decomp (l : List String) (x : String) (hx : x ∈ l) :
    ∃ p q, joinSpace l = p ++ x ++ q := by
  induction l with
  | nil => cases hx
  | cons y ys ih =>
    cases hx with
    | head =>
      cases ys with
      | nil =>
        refine ⟨"", "", ?_⟩
        rw [str_empty_append, str_append_empty]
        rfl
      | cons z zs =>
        refine ⟨"", " " ++ joinSpace (z :: zs), ?_⟩
        rw [str_empty_append]
        show x ++ " " ++ joinSpace (z :: zs) = x ++ (" " ++ joinSpace (z :: zs))
        rw [String.append_assoc]
    | tail _ hmem =>
      obtain ⟨p, q, hpq⟩ := ih hmem
      cases ys with
      | nil => cases hmem
      | cons z zs =>
        refine ⟨y ++ " " ++ p, q, ?_⟩
        show y ++ " " ++ joinSpace (z :: zs) = y ++ " " ++ p ++ x ++ q
        rw [hpq]
        simp [String.append_assoc]

-- ===========================================================================
-- Concrete inputs shared by witnesses
-- ===========================================================================

/-- A device whose location metadata holds shell metacharacters. -/
def devInj : Device :=
  ⟨"host-1", "radxa", "100.64.0.1", "loc; rm tmp", "", "", "", "", "", "pi", "pw"⟩

-- ===========================================================================
-- C9
-- ===========================================================================

/-- C9: every metadata value (and the token) included in the environment
string built by `build_env_string` appears in it wrapped by `shlex.quote`,
and the quoted form parses as a single inert shell word that the shell
passes through literally, so untrusted inventory metadata cannot inject
shell commands. -/
theorem c9_env_values_shell_escaped (d : Device) (zabbix_token v : String)
    (hv : v ∈ includedValues d zabbix_token) :
    (∃ p q, build_env_string d zabbix_token = p ++ shlexQuote v ++ q) ∧
    shellParseWord (shlexQuote v) = some v := by
  refine ⟨?_, shlexQuote_inert v⟩
  obtain ⟨kv, hkv, hv2⟩ := List.mem_map.mp hv
  subst hv2
  have hpart : kv.1 ++ "=" ++ shlexQuote kv.2 ∈ envParts d zabbix_token :=
    List.mem_map_of_mem _ hkv
  obtain ⟨p, q, hpq⟩ := joinSpace_decomp _ _ hpart
  refine ⟨p ++ (kv.1 ++ "="), q, ?_⟩
  show joinSpace (envParts d zabbix_token) = p ++ (kv.1 ++ "=") ++ shlexQuote kv.2 ++ q
  rw [hpq]
  simp [String.append_assoc]

/-- C9 witness: the theorem applied to a concrete device whose location
holds a command-separator, with a concrete token. -/
theorem c9_witness :
    (∃ p q, build_env_string devInj "se cret" = p ++ shlexQuote "loc; rm tmp" ++ q) ∧
    shellParseWord (shlexQuote "loc; rm tmp") = some "loc; rm tmp" :=
  c9_env_values_shell_escaped devInj "se cret" "loc; rm tmp" (by decide)

-- ===========================================================================
-- Helper lemmas: deploy_device
-- ===========================================================================

theorem deploy_device_exec (d : Device) (e : DeployEnv) (hr : e.reachable = true)
    (hx : e.useGithub = true ∨ (e.localScriptExists = true ∧ e.scpResult.returncode = 0)) :
    deploy_device d e
      = finishExec d.device_name (logPath e.logDir d.device_name) e.dur e.execResult := by
  unfold deploy_device
  by_cases hg : e.useGithub = true
  · simp [hr, hg]
  · rcases hx with hgh | ⟨hl, hs⟩
    · exact absurd hgh hg
    · simp [hr, hg, hl, hs]

theorem finishExec_error (name log : String) (dur : Nat) (r : CmdResult)
    (hf : r.returncode ≠ 0) :
    (finishExec name log dur r).error_message =
      (if (if (pyStrip r.stderr).length > 200
            then "..." ++ takeRight 200 (pyStrip r.stderr) else pyStrip r.stderr) = ""
        then "Script exited with non-zero status"
        else (if (pyStrip r.stderr).length > 200
            then "..." ++ takeRight 200 (pyStrip r.stderr) else pyStrip r.stderr)) := by
  unfold finishExec
  rw [if_neg hf]

theorem finishExec_success (name log : String) (dur : Nat) (r : CmdResult) :
    (finishExec name log dur r).success = decide (r.returncode = 0) := by
  unfold finishExec
  by_cases h : r.returncode = 0
  · simp [h]
  · simp [h]

theorem str_suffix_decomp (s : String) (n : Nat) :
    ∃ pre, s = pre ++ takeRight n s := by
  refine ⟨String.mk (s.data.take (s.data.length - n)), ?_⟩
  cases s with
  | mk l =>
    show String.mk l = String.mk (l.take (l.length - n) ++ l.drop (l.length - n))
    rw [List.take_append_drop]

-- ===========================================================================
-- C3
-- ===========================================================================

/-- C3: for every deployment attempt that reaches the execute step (the
probe succeeded, and in local mode the script existed and the SCP step
exited zero), the outcome's success flag is true exactly when the execute
step's exit code is zero. -/
theorem c3_success_iff_zero_exit (d : Device) (e : DeployEnv)
    (hr : e.reachable = true)
    (hx : e.useGithub = true ∨ (e.localScriptExists = true ∧ e.scpResult.returncode = 0)) :
    (deploy_device d e).success = decide (e.execResult.returncode = 0) := by
  rw [deploy_device_exec d e hr hx]
  exact finishExec_success _ _ _ _

/-- A successful execute-step command result. -/
def cmdOk : CmdResult := ⟨0, "done", ""⟩

/-- A failing execute-step command result. -/
def cmdFail : CmdResult := ⟨1, "", "boom"⟩

/-- A GitHub-mode transport trace with a reachable host and the given
execute result. -/
def envGh (r : CmdResult) : DeployEnv :=
  ⟨"logs", "scripts", true, true, "OK", true, ⟨0, "", ""⟩, r, 3⟩

/-- C3 witness: the theorem applied to one zero-exit and one non-zero-exit
execute result. -/
theorem c3_witness :
    (deploy_device devInj (envGh cmdOk)).success = true ∧
    (deploy_device devInj (envGh cmdFail)).success = false := by
  constructor
  · exact (c3_success_iff_zero_exit devInj (envGh cmdOk) rfl (Or.inl rfl)).trans (by decide)
  · exact (c3_success_iff_zero_exit devInj (envGh cmdFail) rfl (Or.inl rfl)).trans (by decide)

-- ===========================================================================
-- C4
-- ===========================================================================

/-- An execute result whose stderr is 201 characters long but whose
whitespace-stripped form is the single character `x`. -/
def cmdPad : CmdResult := ⟨1, "", String.mk ('x' :: List.replicate 200 ' ')⟩

/-- A GitHub-mode trace ending in `cmdPad`. -/
def envPad : DeployEnv := ⟨"logs", "scripts", true, true, "OK", true, ⟨0, "", ""⟩, cmdPad, 3⟩

set_option maxRecDepth 100000 in
/-- C4 counterexample: this failed execute step's captured error stream
has 201 characters, which exceeds the 200-character truncation bound,
yet the recorded error message is just `x` — no ellipsis marker is
prepended and the message is not the bound-length tail of the true error
stream, because the code strips whitespace before measuring. -/
theorem c4_counterexample :
    cmdPad.stderr.length = 201 ∧
    (deploy_device devInj envPad).success = false ∧
    (deploy_device devInj envPad).error_message = "x" ∧
    (deploy_device devInj envPad).error_message ≠ "..." ++ takeRight 200 cmdPad.stderr := by
  refine ⟨by decide, by decide, by decide, by decide⟩

/-- C4 (amended): for every failed execute step, with the truncation rule
applied to the whitespace-stripped captured error stream: when the
stripped stream exceeds 200 characters the recorded message is an
ellipsis marker followed by the stripped stream's last 200 characters
(length exactly 203, and that kept portion is a suffix of the stripped
stream); when the stripped stream is empty a generic non-zero-exit
message is substituted; when it is non-empty and within the bound it is
recorded verbatim; the recorded error message is never empty. -/
theorem c4_amended_truncation (d : Device) (e : DeployEnv)
    (hr : e.reachable = true)
    (hx : e.useGithub = true ∨ (e.localScriptExists = true ∧ e.scpResult.returncode = 0))
    (hf : e.execResult.returncode ≠ 0) :
    (deploy_device d e).error_message ≠ ""
    ∧ ((pyStrip e.execResult.stderr).length > 200 →
        (deploy_device d e).error_message
          = "..." ++ takeRight 200 (pyStrip e.execResult.stderr)
        ∧ (deploy_device d e).error_message.length = 203
        ∧ ∃ pre, pyStrip e.execResult.stderr
            = pre ++ takeRight 200 (pyStrip e.execResult.stderr))
    ∧ (pyStrip e.execResult.stderr = "" →
        (deploy_device d e).error_message = "Script exited with non-zero status")
    ∧ (pyStrip e.execResult.stderr ≠ "" → (pyStrip e.execResult.stderr).length ≤ 200 →
        (deploy_device d e).error_message = pyStrip e.execResult.stderr) := by
  have herr : (deploy_device d e).error_message =
      (if (if (pyStrip e.execResult.stderr).length > 200
            then "..." ++ takeRight 200 (pyStrip e.execResult.stderr)
            else pyStrip e.execResult.stderr) = ""
        then "Script exited with non-zero status"
        else (if (pyStrip e.execResult.stderr).length > 200
            then "..." ++ takeRight 200 (pyStrip e.execResult.stderr)
            else pyStrip e.execResult.stderr)) := by
    rw [deploy_device_exec d e hr hx]
    exact finishExec_error _ _ _ _ hf
  by_cases hemp : pyStrip e.execResult.stderr = ""
  · have h0 : (pyStrip e.execResult.stderr).length = 0 := by
      rw [hemp]
      rfl
    have hng : ¬((pyStrip e.execResult.stderr).length > 200) := by omega
    rw [if_neg hng, if_pos hemp] at herr
    refine ⟨?_, ?_, fun _ => herr, ?_⟩
    · rw [herr]
      decide
    · intro h200
      omega
    · intro hne _
      exact absurd hemp hne
  · by_cases h200 : (pyStrip e.execResult.stderr).length > 200
    · have hlen : ("..." ++ takeRight 200 (pyStrip e.execResult.stderr)).length = 203 := by
        rw [str_length_append]
        have hdl : (takeRight 200 (pyStrip e.execResult.stderr)).length
            = (pyStrip e.execResult.stderr).data.length
              - ((pyStrip e.execResult.stderr).data.length - 200) :=
          List.length_drop _ _
        rw [hdl]
        have h200d : 200 < (pyStrip e.execResult.stderr).data.length := h200
        have h3 : ("..." : String).length = 3 := rfl
        rw [h3]
        omega
      have hne2 : ("..." ++ takeRight 200 (pyStrip e.execResult.stderr)) ≠ "" := by
        intro hbad
        rw [hbad] at hlen
        exact absurd hlen (by decide)
      rw [if_pos h200, if_neg hne2] at herr
      refine ⟨?_, fun _ => ⟨herr, ?_, str_suffix_decomp _ 200⟩,
        fun hbad => absurd hbad hemp, fun _ hle => absurd h200 (by omega)⟩
      · rw [herr]
        exact hne2
      · rw [herr]
        exact hlen
    · rw [if_neg h200, if_neg hemp] at herr
      exact ⟨by rw [herr]; exact hemp, fun hbad => absurd hbad h200,
        fun hbad => absurd hbad hemp, fun _ _ => herr⟩

/-- An execute result with a 250-character all-letter stderr. -/
def cmdLong : CmdResult := ⟨1, "", String.mk (List.replicate 250 'a')⟩

/-- A GitHub-mode trace ending in `cmdLong`. -/
def envLong : DeployEnv := ⟨"logs", "scripts", true, true, "OK", true, ⟨0, "", ""⟩, cmdLong, 3⟩

set_option maxRecDepth 100000 in
/-- C4 witness: the amended theorem applied to a concrete over-long
stripped error stream. -/
theorem c4_witness :
    (deploy_device devInj envLong).error_message
      = "..." ++ takeRight 200 (pyStrip cmdLong.stderr) ∧
    (deploy_device devInj envLong).error_message.length = 203 := by
  have h := c4_amended_truncation devInj envLong rfl (Or.inl rfl) (by decide)
  have h2 := h.2.1 (by decide)
  exact ⟨h2.1, h2.2.1⟩

-- ===========================================================================
-- Helper lemmas: state store
-- ===========================================================================

theorem dictGet_dictSet_self (st : StateMap) (k : String) (v : Entry) :
    dictGet (dictSet st k v) k = some v := by
  induction st with
  | nil => simp [dictSet, dictGet]
  | cons p rest ih =>
    obtain ⟨k0, v0⟩ := p
    by_cases h : k0 = k
    · simp [dictSet, h, dictGet]
    · simp [dictSet, h, dictGet, ih]

theorem dictGet_dictSet_other (st : StateMap) (k k2 : String) (v : Entry)
    (h2 : k2 ≠ k) : dictGet (dictSet st k v) k2 = dictGet st k2 := by
  induction st with
  | nil =>
    have h3 : ¬(k = k2) := fun h => h2 h.symm
    simp [dictSet, dictGet, h3]
  | cons p rest ih =>
    obtain ⟨k0, v0⟩ := p
    by_cases h : k0 = k
    · subst h
      have h3 : ¬(k0 = k2) := fun hh => h2 hh.symm
      simp [dictSet, dictGet, h3]
    · by_cases hk2 : k0 = k2
      · subst hk2
        simp [dictSet, dictGet, h]
      · simp [dictSet, dictGet, h, hk2, ih]

theorem dictGet_mem (st : StateMap) (k : String) (e : Entry)
    (h : dictGet st k = some e) : (k, e) ∈ st := by
  induction st with
  | nil => cases h
  | cons p rest ih =>
    obtain ⟨k0, v0⟩ := p
    by_cases hk : k0 = k
    · subst hk
      rw [show dictGet ((k0, v0) :: rest) k0 = some v0 by simp [dictGet]] at h
      injection h with h
      rw [← h]
      exact List.mem_cons_self _ _
    · rw [show dictGet ((k0, v0) :: rest) k = dictGet rest k by simp [dictGet, hk]] at h
      exact List.mem_cons_of_mem _ (ih h)

theorem mem_dictSet (st : StateMap) (k : String) (v : Entry) (p : String × Entry)
    (hp : p ∈ dictSet st k v) : p = (k, v) ∨ p ∈ st := by
  induction st with
  | nil =>
    simp [dictSet] at hp
    exact Or.inl hp
  | cons q rest ih =>
    obtain ⟨k0, v0⟩ := q
    by_cases h : k0 = k
    · simp only [dictSet, if_pos h] at hp
      rcases List.mem_cons.mp hp with h1 | h2
      · exact Or.inl h1
      · exact Or.inr (List.mem_cons_of_mem _ h2)
    · simp only [dictSet, if_neg h] at hp
      rcases List.mem_cons.mp hp with h1 | h2
      · exact Or.inr (by rw [h1]; exact List.mem_cons_self _ _)
      · rcases ih h2 with h3 | h4
        · exact Or.inl h3
        · exact Or.inr (List.mem_cons_of_mem _ h4)

theorem jGet_encode (st : StateMap) (key : String) :
    jGet (st.map (fun p => (p.1, encodeEntry p.2))) key
      = (dictGet st key).map encodeEntry := by
  induction st with
  | nil => rfl
  | cons p rest ih =>
    obtain ⟨k0, v0⟩ := p
    by_cases h : k0 = key <;> simp [jGet, dictGet, h, ih]

-- ===========================================================================
-- Helper lemmas: deployment loop
-- ===========================================================================

theorem handleWorker_fst (d : Device) (w : Except String DeployEnv) (ts : String)
    (st : StateMap) : (handleWorker d w ts st).1 = hostResult d w := by
  cases w with
  | ok env => rfl
  | error e => rfl

theorem hostResult_name (d : Device) (w : Except String DeployEnv) :
    (hostResult d w).device_name = d.device_name := by
  cases w with
  | error e => rfl
  | ok env =>
    show (deploy_device d env).device_name = d.device_name
    simp only [deploy_device, finishExec]
    split_ifs <;> rfl

theorem deployLoop_fst (ds : List Device) (w : Device → Except String DeployEnv)
    (ts : String) (st : StateMap) :
    (deployLoop ds w ts st).1 = ds.map (fun d => hostResult d (w d)) := by
  induction ds generalizing st with
  | nil => rfl
  | cons d rest ih =>
    show (handleWorker d (w d) ts st).1
        :: (deployLoop rest w ts (handleWorker d (w d) ts st).2).1
      = hostResult d (w d) :: rest.map (fun d => hostResult d (w d))
    rw [ih, handleWorker_fst]

theorem wf_handleWorker (d : Device) (w : Except String DeployEnv) (ts : String)
    (st : StateMap) (hwf : wellFormedState st) :
    wellFormedState (handleWorker d w ts st).2 := by
  cases w with
  | error e => exact hwf
  | ok env =>
    show wellFormedState (recordOutcome st d.device_name (deploy_device d env) ts)
    unfold recordOutcome
    by_cases hs : (deploy_device d env).success = true
    · rw [if_pos hs]
      intro p hp
      rcases mem_dictSet _ _ _ _ hp with h1 | h2
      · rw [h1]
        exact Or.inl rfl
      · exact hwf p h2
    · rw [if_neg hs]
      intro p hp
      rcases mem_dictSet _ _ _ _ hp with h1 | h2
      · rw [h1]
        exact Or.inr rfl
      · exact hwf p h2

theorem wf_deployLoop (ds : List Device) (w : Device → Except String DeployEnv)
    (ts : String) : ∀ st, wellFormedState st → wellFormedState (deployLoop ds w ts st).2 := by
  induction ds with
  | nil => exact fun st hwf => hwf
  | cons d rest ih =>
    intro st hwf
    show wellFormedState (deployLoop rest w ts (handleWorker d (w d) ts st).2).2
    exact ih _ (wf_handleWorker d (w d) ts st hwf)

-- ===========================================================================
-- Helper lemmas: selection pipeline exit codes
-- ===========================================================================

theorem exceptChain_ok {α β : Type} (x : Except Nat α) (f : α → Except Nat β)
    (a : α) (h : x = Except.ok a) : exceptChain x f = f a := by
  rw [h]
  rfl

theorem exceptChain_error {α β : Type} (x : Except Nat α) (f : α → Except Nat β)
    (c : Nat) (h : x = Except.error c) : exceptChain x f = Except.error c := by
  rw [h]
  rfl

theorem applyDeviceFilter_error (devices : List Device) (f : Option String) (c : Nat)
    (h : applyDeviceFilter devices f = Except.error c) : c = 1 := by
  cases f with
  | none => exact Except.noConfusion h
  | some name =>
    simp only [applyDeviceFilter] at h
    by_cases he : (devices.filter (fun d => d.device_name = name)).isEmpty = true
    · rw [if_pos he] at h
      injection h with h
      exact h.symm
    · rw [if_neg he] at h
      exact Except.noConfusion h

theorem applyPlatformFilter_error (devices : List Device) (f : Option String) (c : Nat)
    (h : applyPlatformFilter devices f = Except.error c) : c = 1 := by
  cases f with
  | none => exact Except.noConfusion h
  | some p =>
    simp only [applyPlatformFilter] at h
    by_cases he : (devices.filter (fun d => d.platform = p)).isEmpty = true
    · rw [if_pos he] at h
      injection h with h
      exact h.symm
    · rw [if_neg he] at h
      exact Except.noConfusion h

theorem applyStateFilter_error (st : StateMap) (resume retryFailed : Bool)
    (devices : List Device) (c : Nat)
    (h : applyStateFilter st resume retryFailed devices = Except.error c) : c = 0 := by
  unfold applyStateFilter at h
  by_cases hr : resume = true
  · rw [if_pos hr] at h
    exact Except.noConfusion h
  · rw [if_neg hr] at h
    by_cases hf : retryFailed = true
    · rw [if_pos hf] at h
      by_cases he : (retrySelect st devices).isEmpty = true
      · rw [if_pos he] at h
        injection h with h
        exact h.symm
      · rw [if_neg he] at h
        exact Except.noConfusion h
    · rw [if_neg hf] at h
      exact Except.noConfusion h

theorem selectHosts_error (inp : MainInput) (c : Nat)
    (h : selectHosts inp = Except.error c) : c = 0 ∨ c = 1 := by
  unfold selectHosts at h
  by_cases h1 : inp.inventoryExists = false
  · rw [if_pos h1] at h
    injection h with h
    exact Or.inr h.symm
  · rw [if_neg h1] at h
    by_cases h2 : inp.inventory.isEmpty = true
    · rw [if_pos h2] at h
      injection h with h
      exact Or.inr h.symm
    · rw [if_neg h2] at h
      cases hd : applyDeviceFilter inp.inventory inp.deviceFilter with
      | error c1 =>
        rw [exceptChain_error _ _ _ hd] at h
        injection h with h
        subst h
        exact Or.inr (applyDeviceFilter_error _ _ _ hd)
      | ok ds1 =>
        rw [exceptChain_ok _ _ _ hd] at h
        cases hp : applyPlatformFilter ds1 inp.platformFilter with
        | error c2 =>
          rw [exceptChain_error _ _ _ hp] at h
          injection h with h
          subst h
          exact Or.inr (applyPlatformFilter_error _ _ _ hp)
        | ok ds2 =>
          rw [exceptChain_ok _ _ _ hp] at h
          cases hs : applyStateFilter inp.state inp.resume inp.retryFailed ds2 with
          | error c3 =>
            rw [exceptChain_error _ _ _ hs] at h
            injection h with h
            subst h
            exact Or.inl (applyStateFilter_error _ _ _ _ _ hs)
          | ok ds3 =>
            rw [exceptChain_ok _ _ _ hs] at h
            by_cases h3 : ds3.isEmpty = true
            · rw [if_pos h3] at h
              injection h with h
              exact Or.inl h.symm
            · rw [if_neg h3] at h
              exact Except.noConfusion h

-- ===========================================================================
-- C7
-- ===========================================================================

/-- C7: a state-store record call (`mark_success` or `mark_failed`, as
dispatched on the outcome) upserts the entry for that host so that it
reflects only the most recent attempt (status, timestamp, error-or-null),
leaves every other host's entry unchanged, and after persisting the whole
map and re-loading it from the persisted JSON, reading that host's status
yields the just-recorded status. -/
theorem c7_record_upsert_durable (st : StateMap) (device_name ts : String)
    (r : DeploymentResult) :
    dictGet (recordOutcome st device_name r ts) device_name
      = some ⟨if r.success then "success" else "failed", ts,
          if r.success then none else some r.error_message⟩
    ∧ (∀ k, k ≠ device_name →
        dictGet (recordOutcome st device_name r ts) k = dictGet st k)
    ∧ getStatusJ
        (stateLoad (FileState.json (encodeState (recordOutcome st device_name r ts))))
        device_name
      = some (JVal.str (if r.success then "success" else "failed")) := by
  have hmain : dictGet (recordOutcome st device_name r ts) device_name
      = some ⟨if r.success then "success" else "failed", ts,
          if r.success then none else some r.error_message⟩ := by
    by_cases hs : r.success = true
    · simp [recordOutcome, hs, mark_success, dictGet_dictSet_self]
    · simp [recordOutcome, hs, mark_failed, dictGet_dictSet_self]
  refine ⟨hmain, ?_, ?_⟩
  · intro k hk
    by_cases hs : r.success = true
    · simp only [recordOutcome, if_pos hs, mark_success]
      exact dictGet_dictSet_other st device_name k _ hk
    · simp only [recordOutcome, if_neg hs, mark_failed]
      exact dictGet_dictSet_other st device_name k _ hk
  · show getStatusJ (encodeState (recordOutcome st device_name r ts)) device_name = _
    simp only [encodeState, getStatusJ, jGet_encode, hmain]
    simp [encodeEntry, jGet]

/-- A concrete failed outcome. -/
def resFailEx : DeploymentResult := ⟨"h1", false, 5, "boom", "logs/h1.log"⟩

/-- C7 witness: recording a failed outcome into an empty store and
re-loading the persisted JSON yields the `failed` status. -/
theorem c7_witness :
    dictGet (recordOutcome [] "h1" resFailEx "t0") "h1" = some ⟨"failed", "t0", some "boom"⟩
    ∧ getStatusJ
        (stateLoad (FileState.json (encodeState (recordOutcome [] "h1" resFailEx "t0")))) "h1"
      = some (JVal.str "failed") := by
  have h := c7_record_upsert_durable [] "h1" "t0" resFailEx
  exact ⟨h.1, h.2.2⟩

-- ===========================================================================
-- C8
-- ===========================================================================

/-- C8 counterexample: a persisted state file holding the syntactically
valid JSON string `"xyzzy"` — which is not the store's flat-mapping
format — is returned by load as is, not replaced by the empty state. -/
theorem c8_counterexample :
    stateLoad (FileState.json (JVal.str "xyzzy")) = JVal.str "xyzzy"
    ∧ jIsObj (stateLoad (FileState.json (JVal.str "xyzzy"))) = false
    ∧ stateLoad (FileState.json (JVal.str "xyzzy")) ≠ JVal.obj [] := by
  refine ⟨rfl, rfl, ?_⟩
  intro h
  exact JVal.noConfusion h

/-- C8 (amended): load returns the empty state when the file is absent,
unreadable, or not parseable as JSON at all; but any successfully parsed
JSON value — including one that is not the store's mapping format — is
returned unvalidated rather than replaced by the empty state. -/
theorem c8_amended_load_soft (v : JVal) :
    stateLoad FileState.absent = JVal.obj []
    ∧ stateLoad FileState.unreadable = JVal.obj []
    ∧ stateLoad FileState.invalidJson = JVal.obj []
    ∧ stateLoad (FileState.json v) = v :=
  ⟨rfl, rfl, rfl, rfl⟩

/-- C8 witness: the amended theorem applied at a concrete parsed value. -/
theorem c8_witness : stateLoad (FileState.json JVal.null) = JVal.null :=
  (c8_amended_load_soft JVal.null).2.2.2

-- ===========================================================================
-- C5
-- ===========================================================================

/-- C5: in resume mode the selected set is exactly the hosts whose last
recorded status is not `success`; over any store whose entries carry only
the two statuses the store writes (which every state produced by a run
is, per the closing conjunct), that is exactly the hosts recorded as
`failed` plus the never-attempted ones, and every host recorded as
`success` is excluded. -/
theorem c5_resume_selection (st : StateMap) (devices : List Device)
    (hwf : wellFormedState st) :
    (∀ d, d ∈ resumeSelect st devices ↔
      d ∈ devices ∧ get_status st d.device_name ≠ some "success")
    ∧ (∀ d, d ∈ devices →
        (d ∈ resumeSelect st devices ↔
          get_status st d.device_name = some "failed"
          ∨ get_status st d.device_name = none))
    ∧ (∀ ds w ts0 st0, wellFormedState st0 →
        wellFormedState ((deployLoop ds w ts0 st0).2)) := by
  have hchar : ∀ d, d ∈ resumeSelect st devices ↔
      d ∈ devices ∧ get_status st d.device_name ≠ some "success" := by
    intro d
    simp [resumeSelect, List.mem_filter]
  refine ⟨hchar, ?_, fun ds w ts0 st0 h0 => wf_deployLoop ds w ts0 st0 h0⟩
  intro d hd
  rw [hchar d]
  constructor
  · rintro ⟨-, hne⟩
    cases hg : get_status st d.device_name with
    | none => exact Or.inr rfl
    | some s =>
      have hex : ∃ e, dictGet st d.device_name = some e ∧ e.status = s := by
        unfold get_status at hg
        cases he : dictGet st d.device_name with
        | none =>
          rw [he] at hg
          cases hg
        | some e =>
          rw [he] at hg
          refine ⟨e, rfl, ?_⟩
          injection hg
      obtain ⟨e, he, hes⟩ := hex
      have hmem := dictGet_mem st d.device_name e he
      rcases hwf _ hmem with hsucc | hfail
      · have hs2 : s = "success" := hes.symm.trans hsucc
        rw [hs2] at hg
        exact absurd hg hne
      · have hs2 : s = "failed" := hes.symm.trans hfail
        exact Or.inl (by rw [hs2])
  · rintro (hfail | hnone)
    · refine ⟨hd, ?_⟩
      rw [hfail]
      intro hcontra
      injection hcontra with hcontra
      exact absurd hcontra (by decide)
    · refine ⟨hd, ?_⟩
      rw [hnone]
      intro hcontra
      cases hcontra

/-- Example device `a`. -/
def devA : Device := ⟨"a", "macos", "ip1", "l", "", "", "", "", "", "u", "p"⟩

/-- Example device `b`. -/
def devB : Device := ⟨"b", "raspberrypi", "ip2", "l", "", "", "", "", "", "u", "p"⟩

/-- Example device `c`. -/
def devC : Device := ⟨"c", "radxa", "ip3", "l", "", "", "", "", "", "u", "p"⟩

/-- A store after a run where `a` succeeded and `b` failed. -/
def stEx : StateMap := [("a", ⟨"success", "t1", none⟩), ("b", ⟨"failed", "t1", some "x"⟩)]

/-- C5 witness: resume selects the failed host and the never-attempted
host and excludes the succeeded one. -/
theorem c5_witness :
    devB ∈ resumeSelect stEx [devA, devB, devC]
    ∧ devC ∈ resumeSelect stEx [devA, devB, devC]
    ∧ devA ∉ resumeSelect stEx [devA, devB, devC] := by
  have h := c5_resume_selection stEx [devA, devB, devC] (by unfold wellFormedState; decide)
  refine ⟨?_, ?_, ?_⟩
  · exact (h.2.1 devB (by decide)).mpr (Or.inl (by decide))
  · exact (h.2.1 devC (by decide)).mpr (Or.inr (by decide))
  · intro hmem
    exact ((h.1 devA).mp hmem).2 (by decide)

-- ===========================================================================
-- C6
-- ===========================================================================

/-- C6: in retry-failed mode the selected set is exactly the hosts whose
last recorded status is `failed`, and when that set is empty the run
terminates before any deployment with exit code 0 (success disposition,
zero work), not as a failure. -/
theorem c6_retry_failed_selection (inp : MainInput) (ds1 ds2 : List Device)
    (hinv : inp.inventoryExists = true)
    (hne : inp.inventory.isEmpty = false)
    (hd : applyDeviceFilter inp.inventory inp.deviceFilter = Except.ok ds1)
    (hp : applyPlatformFilter ds1 inp.platformFilter = Except.ok ds2)
    (hres : inp.resume = false) (hret : inp.retryFailed = true) :
    (∀ d, d ∈ retrySelect inp.state ds2 ↔
      d ∈ ds2 ∧ get_status inp.state d.device_name = some "failed")
    ∧ (retrySelect inp.state ds2 = [] →
        selectHosts inp = Except.error 0 ∧ mainExit inp = 0) := by
  constructor
  · intro d
    simp [retrySelect, List.mem_filter]
  · intro hempty
    have hninv : ¬(inp.inventoryExists = false) := by
      rw [hinv]
      intro hh
      cases hh
    have hnemp : ¬(inp.inventory.isEmpty = true) := by
      rw [hne]
      intro hh
      cases hh
    have hsel : selectHosts inp = Except.error 0 := by
      unfold selectHosts
      rw [if_neg hninv, if_neg hnemp, exceptChain_ok _ _ _ hd, exceptChain_ok _ _ _ hp]
      have hsf : applyStateFilter inp.state inp.resume inp.retryFailed ds2
          = Except.error 0 := by
        unfold applyStateFilter
        rw [hres, hret, hempty]
        simp
      rw [exceptChain_error _ _ _ hsf]
    refine ⟨hsel, ?_⟩
    unfold mainExit
    rw [hsel]

/-- Retry-failed run whose store has no failed entries. -/
def inpRetryEmpty : MainInput :=
  ⟨true, [devA, devB], none, none, false, true, 1, [("a", ⟨"success", "t1", none⟩)], "t2",
    fun _ => Except.error "nope", id⟩

/-- C6 witness: the theorem applied to a concrete retry-failed run with an
all-success store — the process exits 0 before deploying anything. -/
theorem c6_witness :
    selectHosts inpRetryEmpty = Except.error 0 ∧ mainExit inpRetryEmpty = 0 := by
  have h := c6_retry_failed_selection inpRetryEmpty [devA, devB] [devA, devB]
    rfl rfl rfl rfl rfl rfl
  exact h.2 (by decide)

-- ===========================================================================
-- C1
-- ===========================================================================

/-- C1: for every pool size in `[1, 5]` and every completion order (a
permutation of the selected hosts), the run records exactly one outcome
per selected host — the results list has the same length and the same
multiset of host names as the selection, with no duplicates and no
omissions — and any host whose worker raises an exception contributes a
failed outcome carrying the generic `Unexpected error` diagnostic while
the run still covers every other host. -/
theorem c1_one_outcome_per_host (n : Nat) (devices order : List Device)
    (w : Device → Except String DeployEnv) (ts : String) (st : StateMap)
    (hn : 1 ≤ n ∧ n ≤ 5) (hperm : order.Perm devices) :
    (deployAll n devices order w ts st).1.length = devices.length
    ∧ ((deployAll n devices order w ts st).1.map (fun r => r.device_name)).Perm
        (devices.map (fun d => d.device_name))
    ∧ (∀ d, d ∈ devices → ∀ e, w d = Except.error e →
        (⟨d.device_name, false, 0, "Unexpected error: " ++ e, ""⟩ : DeploymentResult)
          ∈ (deployAll n devices order w ts st).1) := by
  have hall : (deployAll n devices order w ts st).1
      = (if 1 < n then order else devices).map (fun d => hostResult d (w d)) := by
    unfold deployAll
    by_cases h : 1 < n
    · rw [if_pos h, if_pos h, deployLoop_fst]
    · rw [if_neg h, if_neg h, deployLoop_fst]
  have hperm2 : (if 1 < n then order else devices).Perm devices := by
    by_cases h : 1 < n
    · rw [if_pos h]
      exact hperm
    · rw [if_neg h]
  refine ⟨?_, ?_, ?_⟩
  · rw [hall, List.length_map]
    exact hperm2.length_eq
  · rw [hall]
    have h1 : ((if 1 < n then order else devices).map
          (fun d => hostResult d (w d))).map (fun r => r.device_name)
        = (if 1 < n then order else devices).map (fun d => d.device_name) := by
      rw [List.map_map]
      apply List.map_congr_left
      intro a _
      exact hostResult_name a (w a)
    rw [h1]
    exact hperm2.map _
  · intro d hd e he
    rw [hall]
    have hd2 : d ∈ (if 1 < n then order else devices) := hperm2.mem_iff.mpr hd
    have hres : hostResult d (w d)
        = ⟨d.device_name, false, 0, "Unexpected error: " ++ e, ""⟩ := by
      unfold hostResult
      rw [he]
    rw [← hres]
    exact List.mem_map_of_mem _ hd2

/-- A worker oracle that raises on host `b` and completes everywhere
else. -/
def wEx : Device → Except String DeployEnv :=
  fun d => if d.device_name = "b" then Except.error "boom" else Except.ok (envGh cmdOk)

/-- C1 witness: two hosts, pool size 2, completion order reversed, one
worker raising — two outcomes, with the raiser's outcome downgraded to
the generic failure. -/
theorem c1_witness :
    (deployAll 2 [devA, devB] [devB, devA] wEx "t" []).1.length = 2
    ∧ (⟨"b", false, 0, "Unexpected error: boom", ""⟩ : DeploymentResult)
        ∈ (deployAll 2 [devA, devB] [devB, devA] wEx "t" []).1 := by
  have h := c1_one_outcome_per_host 2 [devA, devB] [devB, devA] wEx "t" []
    (by decide) (by decide)
  exact ⟨h.1, h.2.2 devB (by decide) "boom" rfl⟩

-- ===========================================================================
-- C10
-- ===========================================================================

/-- Trace of one worker attempt with the record step's fault point made
explicit. `raiseInDeploy e` is an exception raised inside `deploy_device`,
before any state access. `completes env saveFault` means `deploy_device`
returned with transport trace `env`; the record call then performs the
in-memory dict assignment first, after which `_save` either succeeds
(`saveFault = none`) or raises with the given message (`saveFault = some e`)
— for example an OSError from reopening the state file, or a RuntimeError
when the unlocked dict mutates during `json.dump` under parallel mode. -/
inductive WorkerStep where
  | raiseInDeploy : String → WorkerStep
  | completes : DeployEnv → Option String → WorkerStep

/-- `deploy_and_record` with `mark_success`/`mark_failed` split into their
two source steps: the in-memory assignment `self.state[device_name] = ...`
(which cannot fail) followed by `_save` (which can raise). The returned
map is the in-memory state after the call, whether or not an exception
escapes: a `_save` fault escapes only after the assignment happened. -/
def deploy_and_record_split (d : Device) (w : WorkerStep) (ts : String)
    (st : StateMap) : Except String DeploymentResult × StateMap :=
  match w with
  | WorkerStep.raiseInDeploy e => (Except.error e, st)
  | WorkerStep.completes env saveFault =>
    match saveFault with
    | none =>
      (Except.ok (deploy_device d env),
        recordOutcome st d.device_name (deploy_device d env) ts)
    | some e =>
      (Except.error e, recordOutcome st d.device_name (deploy_device d env) ts)

/-- The loops' `try/except` handler over the split model: an escaped
exception is replaced by the generic failed outcome either way, but the
state reflects whatever the attempt already wrote. -/
def handleWorker_split (d : Device) (w : WorkerStep) (ts : String)
    (st : StateMap) : DeploymentResult × StateMap :=
  match deploy_and_record_split d w ts st with
  | (Except.ok r, st2) => (r, st2)
  | (Except.error e, st2) => (⟨d.device_name, false, 0, "Unexpected error: " ++ e, ""⟩, st2)

/-- C10 counterexample: host `a` deploys successfully, but `_save` raises
after the in-memory `mark_success` assignment; the exception escapes the
worker and the loop handler records the generic `Unexpected error` failed
outcome — yet the state entry for `a` has been overwritten to `success`
by this very attempt (it was absent before), refuting the claim that no
`mark_success`/`mark_failed` write occurs and that the entry is left
unchanged whenever the worker raises. -/
theorem c10_counterexample :
    (handleWorker_split devA
        (WorkerStep.completes (envGh cmdOk) (some "disk full")) "t9" []).1
      = ⟨"a", false, 0, "Unexpected error: disk full", ""⟩
    ∧ dictGet (handleWorker_split devA
        (WorkerStep.completes (envGh cmdOk) (some "disk full")) "t9" []).2 "a"
      = some ⟨"success", "t9", none⟩
    ∧ dictGet ([] : StateMap) "a" = none := by
  refine ⟨by decide, by decide, rfl⟩

/-- C10 (amended): when a per-host worker raises (in either loop's shared
handler structure), the substituted failed outcome always reports
duration 0, no log-file reference and the generic `Unexpected error`
diagnostic; the state store's entry for that host is left unchanged
exactly when the exception is raised before the record step (inside
`deploy_device`), so only then is a later resume or retry-failed decision
based on the previous run's status — a fault inside the record step's
persistence escapes only after the in-memory assignment, and the entry
then already reflects this faulted attempt's status. -/
theorem c10_amended_fault_state (d : Device) (ts : String) (st : StateMap) :
    (∀ e,
      (handleWorker_split d (WorkerStep.raiseInDeploy e) ts st).1
        = ⟨d.device_name, false, 0, "Unexpected error: " ++ e, ""⟩
      ∧ (handleWorker_split d (WorkerStep.raiseInDeploy e) ts st).2 = st
      ∧ (∀ k, get_status (handleWorker_split d (WorkerStep.raiseInDeploy e) ts st).2 k
          = get_status st k))
    ∧ (∀ env e,
      (handleWorker_split d (WorkerStep.completes env (some e)) ts st).1
        = ⟨d.device_name, false, 0, "Unexpected error: " ++ e, ""⟩
      ∧ (handleWorker_split d (WorkerStep.completes env (some e)) ts st).2
        = recordOutcome st d.device_name (deploy_device d env) ts) :=
  ⟨fun e => ⟨rfl, rfl, fun _ => rfl⟩, fun env e => ⟨rfl, rfl⟩⟩

/-- C10 witness: the amended theorem applied to a concrete pre-record
fault (state untouched) and a concrete save fault (generic failed
outcome nonetheless recorded). -/
theorem c10_witness :
    (handleWorker_split devA (WorkerStep.raiseInDeploy "io") "t" stEx).2 = stEx
    ∧ (handleWorker_split devA
        (WorkerStep.completes (envGh cmdOk) (some "os")) "t" stEx).1.success = false := by
  have h := c10_amended_fault_state devA "t" stEx
  refine ⟨(h.1 "io").2.1, ?_⟩
  rw [(h.2 (envGh cmdOk) "os").1]

-- ===========================================================================
-- C2
-- ===========================================================================

/-- A run whose inventory file is missing: a hard configuration error. -/
def inpNoInv : MainInput :=
  ⟨false, [], none, none, false, false, 1, [], "t", fun _ => Except.error "io", id⟩

/-- A well-configured one-host run whose only worker faults, so the host
fails. -/
def inpOneFail : MainInput :=
  ⟨true, [devA], none, none, false, false, 1, [], "t", fun _ => Except.error "io", id⟩

/-- C2 counterexample: the missing-inventory configuration error and the
one-failed-host run exit with the same process code 1 — the code has only
the binary exit codes 0 and 1, not a distinct hard-configuration-error
exit class. -/
theorem c2_counterexample :
    mainExit inpNoInv = 1
    ∧ selectHosts inpOneFail = Except.ok [devA]
    ∧ (deployAll (clampParallel inpOneFail.parallel) [devA] [devA] inpOneFail.worker
        inpOneFail.ts inpOneFail.state).1
      = [⟨"a", false, 0, "Unexpected error: io", ""⟩]
    ∧ mainExit inpOneFail = 1
    ∧ mainExit inpNoInv = mainExit inpOneFail := by
  refine ⟨rfl, rfl, by decide, rfl, rfl⟩

/-- C2 (amended): the process disposition is binary, not three-class:
every run exits 0 or 1; missing inventory and an empty parsed inventory
exit 1 (sharing the failure code); every pre-deployment `sys.exit(c)`
surfaces as exit code `c ∈ {0, 1}` (0 exactly for the intentional
zero-work stops); and when selection succeeds the exit code is 1 exactly
when some recorded outcome failed, else 0. -/
theorem c2_amended_exit_binary (inp : MainInput) :
    (mainExit inp = 0 ∨ mainExit inp = 1)
    ∧ (inp.inventoryExists = false → mainExit inp = 1)
    ∧ (inp.inventoryExists = true → inp.inventory.isEmpty = true → mainExit inp = 1)
    ∧ (∀ c, selectHosts inp = Except.error c → mainExit inp = c ∧ (c = 0 ∨ c = 1))
    ∧ (∀ ds, selectHosts inp = Except.ok ds →
        mainExit inp =
          if ((deployAll (clampParallel inp.parallel) ds (inp.completion ds)
              inp.worker inp.ts inp.state).1.any (fun r => !r.success))
          then 1 else 0) := by
  have herr : ∀ c, selectHosts inp = Except.error c → mainExit inp = c := by
    intro c hc
    unfold mainExit
    rw [hc]
  have hok : ∀ ds, selectHosts inp = Except.ok ds →
      mainExit inp =
        if ((deployAll (clampParallel inp.parallel) ds (inp.completion ds)
            inp.worker inp.ts inp.state).1.any (fun r => !r.success))
        then 1 else 0 := by
    intro ds hds
    unfold mainExit
    rw [hds]
  refine ⟨?_, ?_, ?_, fun c hc => ⟨herr c hc, selectHosts_error inp c hc⟩, hok⟩
  · cases hsel : selectHosts inp with
    | error c =>
      rcases selectHosts_error inp c hsel with h0 | h1
      · exact Or.inl (by rw [herr c hsel, h0])
      · exact Or.inr (by rw [herr c hsel, h1])
    | ok ds =>
      rw [hok ds hsel]
      by_cases hany : ((deployAll (clampParallel inp.parallel) ds (inp.completion ds)
          inp.worker inp.ts inp.state).1.any (fun r => !r.success)) = true
      · exact Or.inr (by rw [if_pos hany])
      · exact Or.inl (by rw [if_neg hany])
  · intro hfalse
    have hsel : selectHosts inp = Except.error 1 := by
      unfold selectHosts
      rw [if_pos hfalse]
    exact herr 1 hsel
  · intro htrue hempty
    have hninv : ¬(inp.inventoryExists = false) := by
      rw [htrue]
      intro hh
      cases hh
    have hsel : selectHosts inp = Except.error 1 := by
      unfold selectHosts
      rw [if_neg hninv, if_pos hempty]
    exact herr 1 hsel

/-- C2 witness: the amended theorem applied to the concrete
missing-inventory run. -/
theorem c2_witness : mainExit inpNoInv = 1 :=
  (c2_amended_exit_binary inpNoInv).2.1 rfl
